import Mathlib

/-!
Shallow embedding of the cart/favorites/order logic of the shopping-site
backend (src/controllers/userController.ts, src/src/models/UserModel.ts).

JavaScript arrays become `List`, mongoose `Number` fields become `Int`
(quantities and prices; only linear arithmetic on them occurs), `Date` and
`ObjectId` values become `Nat` parameters supplied by the server at call
time.  JavaScript truthiness of a string (`if (item.productId)`) is the
test for the empty string.  Handlers that answer an HTTP response are
embedded as pure functions returning the updated user document together
with the response status (and payload where a claim needs it).
-/

set_option autoImplicit false

namespace ShoppingSite

/-- Embeds `ICartItem` of src/src/models/UserModel.ts. -/
structure ICartItem where
  productId : String
  name : String
  price : Int
  quantity : Int
  image : String
deriving Repr, DecidableEq

/-- Embeds `IOrderItem` of src/src/models/UserModel.ts (same field set as
`ICartItem`). -/
structure IOrderItem where
  productId : String
  name : String
  price : Int
  quantity : Int
  image : String
deriving Repr, DecidableEq

/-- Embeds `IShippingInfo` of src/src/models/UserModel.ts. -/
structure IShippingInfo where
  phoneNumber : String
  address : String
  paymentMethod : String
deriving Repr, DecidableEq

/-- Embeds `IOrder` of src/src/models/UserModel.ts; `_id` is the generated
`mongoose.Types.ObjectId`, `createdAt` the `Date`, both modelled as `Nat`. -/
structure IOrder where
  _id : Nat
  items : List IOrderItem
  total : Int
  createdAt : Nat
  shippingInfo : IShippingInfo
deriving Repr, DecidableEq

/-- Embeds `IUser` of src/src/models/UserModel.ts; `password` holds the
bcrypt hash. -/
structure IUser where
  name : String
  email : String
  password : String
  favorites : List String
  cart : List ICartItem
  orders : List IOrder
deriving Repr, DecidableEq

/-- Embeds the constraints of `cartItemSchema` (UserModel.ts lines 45-51)
that mongoose enforces when a document is saved: every field `required`
(for a string this rejects the empty string), `price` at least 0,
`quantity` at least 1. -/
def cartItemValid (item : ICartItem) : Bool :=
  item.productId != "" && item.name != "" && decide (0 ≤ item.price) &&
    decide (1 ≤ item.quantity) && item.image != ""

/-- Validity of a whole cart under `cartItemSchema`, checked by
`user.save()`. -/
def cartValid (cart : List ICartItem) : Bool :=
  cart.all cartItemValid

/-! ## Cart engine (userController.ts) -/

/-- Embeds the cart mutation of `addToCart` (userController.ts lines
277-284): `findIndex` on `productId`; on a hit the matched element's
`quantity` is incremented in place, otherwise the incoming item is pushed. -/
def addToCart (cart : List ICartItem) (item : ICartItem) : List ICartItem :=
  let existingItemIndex := cart.findIdx (fun c => c.productId == item.productId)
  match cart[existingItemIndex]? with
  | some existing =>
      cart.set existingItemIndex { existing with quantity := existing.quantity + item.quantity }
  | none =>
      cart ++ [{ productId := item.productId, quantity := item.quantity,
                 name := item.name, price := item.price, image := item.image }]

/-- Embeds the `addToCart` handler including the `user.save()` step: when
the mutated cart violates `cartItemSchema`, the save throws, `handleError`
answers status 500 and the stored document keeps its previous value. -/
def addToCartHandler (user : IUser) (item : ICartItem) : IUser × Nat :=
  let newCart := addToCart user.cart item
  if cartValid newCart then ({ user with cart := newCart }, 200)
  else (user, 500)

/-- Embeds the body of `getCart` (userController.ts lines 250-259): filter
keeping items with truthy `productId` and `quantity > 0`; when the filter
dropped anything the cleaned list is saved back; the filtered list is the
response payload. -/
def getCart (user : IUser) : IUser × List ICartItem :=
  let validCartItems := user.cart.filter
    (fun item => item.productId != "" && decide (0 < item.quantity))
  if validCartItems.length != user.cart.length then
    ({ user with cart := validCartItems }, validCartItems)
  else
    (user, validCartItems)

/-- Embeds `updateCart` (userController.ts lines 294-312): wholesale
replacement of the stored cart by the request body, via
`findByIdAndUpdate` (which runs no validators by default). -/
def updateCart (user : IUser) (cart : List ICartItem) : IUser :=
  { user with cart := cart }

/-- Embeds the cart mutation of `removeFromCart` (userController.ts line
329): keep the items whose `productId` differs. -/
def removeFromCart (user : IUser) (productId : String) : IUser :=
  { user with cart := user.cart.filter (fun item => item.productId != productId) }

/-- Embeds `updateCartItem` (userController.ts lines 354-363): `findIndex`
on `productId`; on a hit the quantity is overwritten and the new cart
returned, otherwise `none` (the handler answers 404). -/
def updateCartItem (cart : List ICartItem) (productId : String) (quantity : Int) :
    Option (List ICartItem) :=
  let itemIndex := cart.findIdx (fun item => item.productId == productId)
  match cart[itemIndex]? with
  | some existing => some (cart.set itemIndex { existing with quantity := quantity })
  | none => none

/-- Embeds `clearCart` (userController.ts lines 370-388): the stored cart
becomes the empty list. -/
def clearCart (user : IUser) : IUser :=
  { user with cart := [] }

/-- Embeds one iteration of the `forEach` loop of `mergeCart`
(userController.ts lines 403-412): identical mutation to `addToCart`, the
unmatched incoming item being pushed verbatim. -/
def mergeStep (mergedCart : List ICartItem) (localItem : ICartItem) : List ICartItem :=
  let existingItemIndex := mergedCart.findIdx (fun item => item.productId == localItem.productId)
  match mergedCart[existingItemIndex]? with
  | some existing =>
      mergedCart.set existingItemIndex { existing with quantity := existing.quantity + localItem.quantity }
  | none => mergedCart ++ [localItem]

/-- Embeds `mergeCart` (userController.ts lines 391-421): starting from a
copy of the stored cart, fold the incoming items in, in the caller's
order. -/
def mergeCart (cart localCart : List ICartItem)  : List ICartItem :=
  localCart.foldl mergeStep cart

/-! ## Favorites engine -/

/-- Embeds the favorites mutation of `addFavorite` (userController.ts
lines 147-156): a `productId` already contained leaves the list unchanged
(the handler still answers 200), otherwise it is pushed. -/
def addFavorite (favorites : List String) (productId : String) : List String :=
  if favorites.contains productId then favorites
  else favorites ++ [productId]

/-! ## Credential store -/

/-- Shape of a login HTTP answer: status code and `message` body. -/
structure LoginResponse where
  status : Nat
  message : String
deriving Repr, DecidableEq

/-- Embeds `login` (userController.ts lines 54-97) over a user table and
the bcrypt `compare` function (abstracted as a parameter): missing fields
are a 400, an unknown email and a failed password comparison each answer
the same status 400 with the same body, success answers 200. -/
def login (compare : String → String → Bool) (users : List IUser)
    (email password : String) : LoginResponse :=
  if email == "" || password == "" then
    { status := 400, message := "Email and password are required" }
  else
    match users.find? (fun u => u.email == email) with
    | none => { status := 400, message := "Invalid email or password" }
    | some user =>
        if !compare password user.password then
          { status := 400, message := "Invalid email or password" }
        else
          { status := 200, message := "Login successful" }

/-! ## Order engine -/

/-- Embeds `createOrder` (userController.ts lines 424-455): a new order
built from the caller's `items`, `total`, `shippingInfo` with a freshly
generated `_id` and a server clock `createdAt` (both passed as parameters
here), pushed onto the user's order list; the cart is untouched. -/
def createOrder (user : IUser) (freshId now : Nat) (items : List IOrderItem)
    (total : Int) (shippingInfo : IShippingInfo) : IUser :=
  { user with orders := user.orders ++
      [{ _id := freshId, items := items, total := total,
         shippingInfo := shippingInfo, createdAt := now }] }

/-- Embeds the projection of `getOrders` (userController.ts lines
468-480): each order mapped to its public shape, each item to its five
fields. -/
def getOrders (user : IUser) : List IOrder :=
  user.orders.map (fun order =>
    { _id := order._id,
      items := order.items.map (fun item =>
        { productId := item.productId, name := item.name, price := item.price,
          quantity := item.quantity, image := item.image }),
      total := order.total,
      createdAt := order.createdAt,
      shippingInfo := order.shippingInfo })

/-! ## Derived notions used by the claims -/

/-- Invariant claimed in spec §3: at most one `ICartItem` per `productId`
in a cart, i.e. the list of productIds has no duplicate. -/
def cartInvariant (cart : List ICartItem) : Prop :=
  (cart.map (fun c => c.productId)).Nodup

instance (cart : List ICartItem) : Decidable (cartInvariant cart) :=
  inferInstanceAs (Decidable (List.Nodup _))

/-- Number of cart entries carrying a given `productId`. -/
def pidCount (cart : List ICartItem) (pid : String) : Nat :=
  (cart.filter (fun c => c.productId == pid)).length

/-- Total quantity stored for a given `productId`. -/
def qtySum (cart : List ICartItem) (pid : String) : Int :=
  ((cart.filter (fun c => c.productId == pid)).map (fun c => c.quantity)).sum

/-! ## Structural lemmas about the cart operations -/

theorem mergeStep_eq_addToCart (cart : List ICartItem) (item : ICartItem) :
    mergeStep cart item = addToCart cart item := rfl

@[simp] theorem addToCart_nil (item : ICartItem) : addToCart [] item = [item] := rfl

theorem addToCart_cons (c : ICartItem) (rest : List ICartItem) (item : ICartItem) :
    addToCart (c :: rest) item =
      if c.productId == item.productId
      then { c with quantity := c.quantity + item.quantity } :: rest
      else c :: addToCart rest item := by
  cases h : (c.productId == item.productId) with
  | true => simp [addToCart, List.findIdx_cons, h]
  | false =>
      simp only [addToCart, List.findIdx_cons, h, cond_false, if_false,
        List.getElem?_cons_succ, Bool.false_eq_true]
      cases hm : rest[rest.findIdx (fun x => x.productId == item.productId)]? with
      | none => simp [hm]
      | some old => simp [hm, List.set_cons_succ]

theorem addToCart_of_forall_ne {cart : List ICartItem} {item : ICartItem}
    (h : ∀ c ∈ cart, c.productId ≠ item.productId) :
    addToCart cart item = cart ++ [item] := by
  induction cart with
  | nil => rfl
  | cons c rest ih =>
      have hc : (c.productId == item.productId) = false := by
        simpa using h c (List.mem_cons_self c rest)
      rw [addToCart_cons]
      simp [hc, ih (fun x hx => h x (List.mem_cons_of_mem _ hx))]

theorem addToCart_append_match {l1 l2 : List ICartItem} {old item : ICartItem}
    (h1 : ∀ c ∈ l1, c.productId ≠ item.productId)
    (h2 : old.productId = item.productId) :
    addToCart (l1 ++ old :: l2) item =
      l1 ++ { old with quantity := old.quantity + item.quantity } :: l2 := by
  induction l1 with
  | nil => simp only [List.nil_append]; rw [addToCart_cons]; simp [h2]
  | cons c r ih =>
      have hc : (c.productId == item.productId) = false := by
        simpa using h1 c (List.mem_cons_self c r)
      simp only [List.cons_append]
      rw [addToCart_cons]
      simp [hc, ih (fun x hx => h1 x (List.mem_cons_of_mem _ hx))]

theorem map_productId_addToCart (cart : List ICartItem) (item : ICartItem) :
    (addToCart cart item).map (fun c => c.productId) =
      if cart.any (fun c => c.productId == item.productId)
      then cart.map (fun c => c.productId)
      else cart.map (fun c => c.productId) ++ [item.productId] := by
  induction cart with
  | nil => simp
  | cons c rest ih =>
      rw [addToCart_cons]
      cases h : (c.productId == item.productId) with
      | true => simp [h]
      | false =>
          simp only [List.map_cons, ih, List.any_cons, h, Bool.false_or]
          cases hr : (rest.any fun c => c.productId == item.productId) with
          | true => simp [ih, hr]
          | false => simp [ih, hr]

theorem cartInvariant_addToCart {cart : List ICartItem} (item : ICartItem)
    (h : cartInvariant cart) : cartInvariant (addToCart cart item) := by
  unfold cartInvariant at h ⊢
  rw [map_productId_addToCart]
  split
  · exact h
  · rename_i hany
    rw [List.nodup_append]
    refine ⟨h, List.nodup_singleton _, ?_⟩
    intro a ha hb
    simp only [List.mem_singleton] at hb
    subst hb
    simp only [List.any_eq_true, Bool.not_eq_true] at hany
    obtain ⟨c, hc, he⟩ := List.mem_map.mp ha
    exact hany ⟨c, hc, by simp [he]⟩

theorem pidCount_cons (c : ICartItem) (rest : List ICartItem) (pid : String) :
    pidCount (c :: rest) pid =
      if c.productId == pid then pidCount rest pid + 1 else pidCount rest pid := by
  simp only [pidCount, List.filter_cons]
  split <;> simp

theorem pidCount_append (l1 l2 : List ICartItem) (pid : String) :
    pidCount (l1 ++ l2) pid = pidCount l1 pid + pidCount l2 pid := by
  simp [pidCount, List.filter_append]

theorem qtySum_cons (c : ICartItem) (rest : List ICartItem) (pid : String) :
    qtySum (c :: rest) pid =
      if c.productId == pid then c.quantity + qtySum rest pid else qtySum rest pid := by
  simp only [qtySum, List.filter_cons]
  split <;> simp

theorem pidCount_addToCart (cart : List ICartItem) (item : ICartItem) :
    pidCount (addToCart cart item) item.productId =
      if pidCount cart item.productId = 0 then 1 else pidCount cart item.productId := by
  induction cart with
  | nil => simp [pidCount]
  | cons c rest ih =>
      rw [addToCart_cons]
      cases h : (c.productId == item.productId) with
      | true => simp [pidCount_cons, h, ih]
      | false => simp [pidCount_cons, h, ih]

theorem qtySum_addToCart (cart : List ICartItem) (item : ICartItem) :
    qtySum (addToCart cart item) item.productId =
      qtySum cart item.productId + item.quantity := by
  induction cart with
  | nil => simp [qtySum]
  | cons c rest ih =>
      rw [addToCart_cons]
      cases h : (c.productId == item.productId) with
      | true => simp only [qtySum_cons, h, if_true]; omega
      | false => simp [qtySum_cons, h, ih]

theorem foldl_addToCart_spec (pid : String) (seq : List ICartItem) :
    ∀ cart : List ICartItem, pidCount cart pid ≤ 1 → (∀ s ∈ seq, s.productId = pid) →
      (0 < pidCount cart pid ∨ seq ≠ []) →
      pidCount (seq.foldl addToCart cart) pid = 1 ∧
      qtySum (seq.foldl addToCart cart) pid =
        qtySum cart pid + (seq.map (fun s => s.quantity)).sum := by
  induction seq with
  | nil =>
      intro cart h1 _ h3
      have : pidCount cart pid = 1 := by
        rcases h3 with h3 | h3
        · omega
        · exact absurd rfl h3
      simp [this]
  | cons s rest ih =>
      intro cart h1 h2 _
      have hs : s.productId = pid := h2 s (List.mem_cons_self s rest)
      have hc' : pidCount (addToCart cart s) pid = 1 := by
        have := pidCount_addToCart cart s
        rw [hs] at this
        rw [this]
        split <;> omega
      have hq' : qtySum (addToCart cart s) pid = qtySum cart pid + s.quantity := by
        have := qtySum_addToCart cart s
        rwa [hs] at this
      have hrest := ih (addToCart cart s) (le_of_eq hc')
        (fun x hx => h2 x (List.mem_cons_of_mem _ hx)) (Or.inl (by omega))
      refine ⟨by simpa using hrest.1, ?_⟩
      have := hrest.2
      simp only [List.foldl_cons, List.map_cons, List.sum_cons]
      rw [this, hq']
      ring

theorem forall_ne_of_pidCount_le {l1 l2 : List ICartItem} {old : ICartItem} {pid : String}
    (hold : old.productId = pid)
    (h : pidCount (l1 ++ old :: l2) pid ≤ 1) : ∀ c ∈ l1, c.productId ≠ pid := by
  intro c hc he
  have h1 : 0 < pidCount l1 pid := by
    have : c ∈ l1.filter (fun x => x.productId == pid) :=
      List.mem_filter.mpr ⟨hc, by simp [he]⟩
    exact List.length_pos_of_mem this
  have h2 : 0 < pidCount (old :: l2) pid := by
    rw [pidCount_cons]
    simp [hold]
  rw [pidCount_append] at h
  omega

theorem updateCartItem_cons (c : ICartItem) (rest : List ICartItem) (pid : String) (q : Int) :
    updateCartItem (c :: rest) pid q =
      if c.productId == pid then some ({ c with quantity := q } :: rest)
      else (updateCartItem rest pid q).map (fun l => c :: l) := by
  cases h : (c.productId == pid) with
  | true => simp [updateCartItem, List.findIdx_cons, h]
  | false =>
      simp only [updateCartItem, List.findIdx_cons, h, cond_false, if_false,
        List.getElem?_cons_succ, Bool.false_eq_true]
      cases hm : rest[rest.findIdx (fun x => x.productId == pid)]? with
      | none => simp [hm]
      | some old => simp [hm, List.set_cons_succ]

theorem map_productId_updateCartItem {pid : String} {q : Int} :
    ∀ {cart l : List ICartItem}, updateCartItem cart pid q = some l →
      l.map (fun c => c.productId) = cart.map (fun c => c.productId) := by
  intro cart
  induction cart with
  | nil => intro l h; simp [updateCartItem] at h
  | cons c rest ih =>
      intro l h
      rw [updateCartItem_cons] at h
      cases hc : (c.productId == pid) with
      | true =>
          rw [hc] at h
          simp only [if_true] at h
          cases h
          simp
      | false =>
          rw [hc] at h
          simp only [Bool.false_eq_true, if_false, Option.map_eq_some'] at h
          obtain ⟨l', hl', rfl⟩ := h
          simp [ih hl']

theorem cartInvariant_updateCartItem {cart l : List ICartItem} {pid : String} {q : Int}
    (h : updateCartItem cart pid q = some l) (hinv : cartInvariant cart) :
    cartInvariant l := by
  unfold cartInvariant at hinv ⊢
  rw [map_productId_updateCartItem h]
  exact hinv

theorem cartInvariant_mergeCart {cart : List ICartItem} (localCart : List ICartItem)
    (h : cartInvariant cart) : cartInvariant (mergeCart cart localCart) := by
  induction localCart generalizing cart with
  | nil => exact h
  | cons i rest ih =>
      have hstep : mergeCart cart (i :: rest) = mergeCart (addToCart cart i) rest := rfl
      rw [hstep]
      exact ih (cartInvariant_addToCart i h)

theorem cartInvariant_removeFromCart (user : IUser) (pid : String)
    (h : cartInvariant user.cart) : cartInvariant (removeFromCart user pid).cart := by
  unfold cartInvariant at h ⊢
  exact List.Nodup.sublist ((List.filter_sublist _).map _) h

theorem cartValid_append (l1 l2 : List ICartItem) :
    cartValid (l1 ++ l2) = (cartValid l1 && cartValid l2) := by
  simp [cartValid]

theorem cartValid_cons (c : ICartItem) (l : List ICartItem) :
    cartValid (c :: l) = (cartItemValid c && cartValid l) := by
  simp [cartValid]

theorem getCart_fst_cart (user : IUser) :
    (getCart user).1.cart =
      user.cart.filter (fun item => item.productId != "" && decide (0 < item.quantity)) := by
  by_cases hl : (user.cart.filter
      (fun item => item.productId != "" && decide (0 < item.quantity))).length =
        user.cart.length
  · have hfe := List.filter_eq_self.mpr (List.filter_length_eq_length.mp hl)
    simp [getCart, hl, hfe]
  · simp [getCart, hl]

theorem getCart_snd (user : IUser) :
    (getCart user).2 =
      user.cart.filter (fun item => item.productId != "" && decide (0 < item.quantity)) := by
  unfold getCart
  by_cases hl : ((user.cart.filter
      (fun item => item.productId != "" && decide (0 < item.quantity))).length ≠
        user.cart.length) <;> simp [hl]

/-! ## Claims -/

/-- Claim C1, counterexample to the claim as stated: a cart already holding
productId "A" with quantity 2 satisfies the at-most-one-entry premise, yet
after one `addItem` of quantity 3 the stored quantity is 5, not the sum 3
of the supplied quantities. -/
theorem claim_C1_counterexample :
    pidCount [(⟨"A", "Apple", 10, 2, "a.png"⟩ : ICartItem)] "A" ≤ 1 ∧
    (∀ s ∈ [(⟨"A", "Apple", 10, 3, "a.png"⟩ : ICartItem)], s.productId = "A") ∧
    qtySum (List.foldl addToCart [(⟨"A", "Apple", 10, 2, "a.png"⟩ : ICartItem)]
        [(⟨"A", "Apple", 10, 3, "a.png"⟩ : ICartItem)]) "A" ≠
      ([(⟨"A", "Apple", 10, 3, "a.png"⟩ : ICartItem)].map (fun s => s.quantity)).sum := by
  decide

/-- Claim C1 (amended): a single `addItem` onto a cart with no entry for
the incoming productId appends the item; onto a cart holding exactly one
entry for it (in any position) it bumps that entry's quantity, keeping its
name, price and image and leaving every other entry untouched. A sequence
of `addItem` calls with one productId, starting from a cart with at most
one entry for it (and either that entry present or the sequence nonempty),
leaves exactly one entry for it whose quantity is the initial stored
quantity (0 when absent) plus the sum of the supplied quantities. -/
theorem claim_C1 :
    (∀ (cart : List ICartItem) (item : ICartItem),
        (∀ c ∈ cart, c.productId ≠ item.productId) →
        addToCart cart item = cart ++ [item]) ∧
    (∀ (l1 l2 : List ICartItem) (old item : ICartItem),
        old.productId = item.productId →
        pidCount (l1 ++ old :: l2) item.productId ≤ 1 →
        addToCart (l1 ++ old :: l2) item =
          l1 ++ { old with quantity := old.quantity + item.quantity } :: l2) ∧
    (∀ (cart : List ICartItem) (pid : String) (seq : List ICartItem),
        pidCount cart pid ≤ 1 → (∀ s ∈ seq, s.productId = pid) →
        (0 < pidCount cart pid ∨ seq ≠ []) →
        pidCount (seq.foldl addToCart cart) pid = 1 ∧
        qtySum (seq.foldl addToCart cart) pid =
          qtySum cart pid + (seq.map (fun s => s.quantity)).sum) := by
  refine ⟨fun cart item h => addToCart_of_forall_ne h, ?_, ?_⟩
  · intro l1 l2 old item hold hcount
    exact addToCart_append_match (forall_ne_of_pidCount_le hold hcount) hold
  · intro cart pid seq h1 h2 h3
    exact foldl_addToCart_spec pid seq cart h1 h2 h3

/-- Claim C1 witness: the amended statement evaluated on concrete carts —
an append for a fresh productId, a quantity bump that ignores the arriving
name/price/image, and a two-call sequence summing 2 + 3 into one entry. -/
theorem claim_C1_witness :
    addToCart [(⟨"B", "Pear", 5, 1, "b.png"⟩ : ICartItem)] ⟨"A", "Apple", 10, 3, "a.png"⟩ =
      [⟨"B", "Pear", 5, 1, "b.png"⟩, ⟨"A", "Apple", 10, 3, "a.png"⟩] ∧
    addToCart [(⟨"A", "Apple", 10, 2, "a.png"⟩ : ICartItem)] ⟨"A", "Zpple", 99, 3, "z.png"⟩ =
      [⟨"A", "Apple", 10, 5, "a.png"⟩] ∧
    pidCount (List.foldl addToCart ([] : List ICartItem)
        [⟨"A", "Apple", 10, 2, "a.png"⟩, ⟨"A", "Apple", 10, 3, "a.png"⟩]) "A" = 1 ∧
    qtySum (List.foldl addToCart ([] : List ICartItem)
        [⟨"A", "Apple", 10, 2, "a.png"⟩, ⟨"A", "Apple", 10, 3, "a.png"⟩]) "A" = 5 := by
  have h := claim_C1
  have hseq := h.2.2 [] "A" [⟨"A", "Apple", 10, 2, "a.png"⟩, ⟨"A", "Apple", 10, 3, "a.png"⟩]
    (by decide) (by decide) (Or.inr (by decide))
  refine ⟨(h.1 _ _ (by decide)).trans (by decide), ?_, hseq.1, hseq.2.trans (by decide)⟩
  exact (h.2.1 [] [] ⟨"A", "Apple", 10, 2, "a.png"⟩ ⟨"A", "Zpple", 99, 3, "z.png"⟩
    rfl (by decide)).trans (by decide)

/-- Claim C2: `mergeCart` folds the incoming items into the stored cart in
the caller's order; each step sums the quantity into the entry matching
the incoming productId (the stored cart holding at most one such entry)
and otherwise appends the incoming item verbatim; and the spec's concrete
example merges {A:2} with [{A:3},{B:1}] into {A:5, B:1}. -/
theorem claim_C2 :
    (∀ cart : List ICartItem, mergeCart cart [] = cart) ∧
    (∀ (cart : List ICartItem) (item : ICartItem) (rest : List ICartItem),
        mergeCart cart (item :: rest) = mergeCart (mergeStep cart item) rest) ∧
    (∀ (cart : List ICartItem) (item : ICartItem),
        (∀ c ∈ cart, c.productId ≠ item.productId) →
        mergeStep cart item = cart ++ [item]) ∧
    (∀ (l1 l2 : List ICartItem) (old item : ICartItem),
        old.productId = item.productId →
        pidCount (l1 ++ old :: l2) item.productId ≤ 1 →
        mergeStep (l1 ++ old :: l2) item =
          l1 ++ { old with quantity := old.quantity + item.quantity } :: l2) ∧
    mergeCart [(⟨"A", "Apple", 10, 2, "a.png"⟩ : ICartItem)]
        [⟨"A", "Apple", 10, 3, "a.png"⟩, ⟨"B", "Pear", 5, 1, "b.png"⟩] =
      [⟨"A", "Apple", 10, 5, "a.png"⟩, ⟨"B", "Pear", 5, 1, "b.png"⟩] := by
  refine ⟨fun _ => rfl, fun _ _ _ => rfl, ?_, ?_, by decide⟩
  · intro cart item h
    rw [mergeStep_eq_addToCart]
    exact addToCart_of_forall_ne h
  · intro l1 l2 old item hold hcount
    rw [mergeStep_eq_addToCart]
    exact addToCart_append_match (forall_ne_of_pidCount_le hold hcount) hold

/-- Claim C2 witness: the merge-step characterisations evaluated on
concrete carts — an incoming item with a fresh productId is appended
verbatim, one with a known productId is summed into the stored entry. -/
theorem claim_C2_witness :
    mergeStep [(⟨"A", "Apple", 10, 2, "a.png"⟩ : ICartItem)] ⟨"B", "Pear", 5, 1, "b.png"⟩ =
      [⟨"A", "Apple", 10, 2, "a.png"⟩, ⟨"B", "Pear", 5, 1, "b.png"⟩] ∧
    mergeStep [(⟨"A", "Apple", 10, 2, "a.png"⟩ : ICartItem)] ⟨"A", "Apple", 10, 3, "a.png"⟩ =
      [⟨"A", "Apple", 10, 5, "a.png"⟩] := by
  have h := claim_C2
  refine ⟨(h.2.2.1 _ _ (by decide)).trans (by decide), ?_⟩
  exact (h.2.2.2.1 [] [] ⟨"A", "Apple", 10, 2, "a.png"⟩ ⟨"A", "Apple", 10, 3, "a.png"⟩
    rfl (by decide)).trans (by decide)

/-- Claim C3, counterexample to the claim as stated: `replaceCart`
(`updateCart`) copies the caller's list verbatim, so replacing an empty
cart — which satisfies the invariant — with two entries for productId "A"
yields a cart violating it. -/
theorem claim_C3_counterexample :
    cartInvariant ([] : List ICartItem) ∧
    ¬ cartInvariant (updateCart ⟨"n", "e@x", "h", [], [], []⟩
        [⟨"A", "Apple", 10, 1, "a.png"⟩, ⟨"A", "Apple", 10, 1, "a.png"⟩]).cart := by
  decide

/-- Claim C3 (amended): `addItem`, `updateItem`, `removeItem`, `clearCart`
and `mergeCart` preserve the at-most-one-entry-per-productId invariant;
`replaceCart` does not in general — its result satisfies the invariant
exactly when the caller-supplied list already does. -/
theorem claim_C3 :
    (∀ (cart : List ICartItem) (item : ICartItem),
        cartInvariant cart → cartInvariant (addToCart cart item)) ∧
    (∀ (cart : List ICartItem) (pid : String) (q : Int) (l : List ICartItem),
        updateCartItem cart pid q = some l → cartInvariant cart → cartInvariant l) ∧
    (∀ (user : IUser) (items : List ICartItem),
        cartInvariant (updateCart user items).cart ↔ cartInvariant items) ∧
    (∀ (user : IUser) (pid : String),
        cartInvariant user.cart → cartInvariant (removeFromCart user pid).cart) ∧
    (∀ user : IUser, cartInvariant (clearCart user).cart) ∧
    (∀ (cart localCart : List ICartItem),
        cartInvariant cart → cartInvariant (mergeCart cart localCart)) := by
  refine ⟨fun cart item h => cartInvariant_addToCart item h,
    fun cart pid q l h hinv => cartInvariant_updateCartItem h hinv,
    fun user items => Iff.rfl,
    fun user pid h => cartInvariant_removeFromCart user pid h,
    fun user => List.nodup_nil,
    fun cart localCart h => cartInvariant_mergeCart localCart h⟩

/-- Claim C3 witness: the invariant-preserving operations evaluated on a
concrete user whose cart holds productIds "A" and "B", and the
`replaceCart` equivalence instantiated with a duplicate-free list. -/
theorem claim_C3_witness :
    cartInvariant (addToCart [(⟨"B", "Pear", 5, 1, "b.png"⟩ : ICartItem)]
      ⟨"A", "Apple", 10, 3, "a.png"⟩) ∧
    cartInvariant [(⟨"A", "Apple", 10, 7, "a.png"⟩ : ICartItem)] ∧
    cartInvariant (updateCart ⟨"n", "e@x", "h", [], [], []⟩
      [(⟨"B", "Pear", 5, 1, "b.png"⟩ : ICartItem)]).cart ∧
    cartInvariant (removeFromCart
      ⟨"n", "e@x", "h", [], [⟨"A", "Apple", 10, 2, "a.png"⟩, ⟨"B", "Pear", 5, 1, "b.png"⟩], []⟩
      "A").cart ∧
    cartInvariant (clearCart ⟨"n", "e@x", "h", [], [], []⟩).cart ∧
    cartInvariant (mergeCart [(⟨"A", "Apple", 10, 2, "a.png"⟩ : ICartItem)]
      [⟨"A", "Apple", 10, 3, "a.png"⟩, ⟨"B", "Pear", 5, 1, "b.png"⟩]) := by
  have h := claim_C3
  exact ⟨h.1 _ _ (by decide),
    h.2.1 [⟨"A", "Apple", 10, 2, "a.png"⟩] "A" 7 [⟨"A", "Apple", 10, 7, "a.png"⟩]
      (by decide) (by decide),
    (h.2.2.1 _ _).mpr (by decide),
    h.2.2.2.1 _ "A" (by decide),
    h.2.2.2.2.1 _,
    h.2.2.2.2.2 _ _ (by decide)⟩

/-- Claim C4, counterexample to the claim as stated: a login with an
unknown email is answered with HTTP status 400, not 401. -/
theorem claim_C4_counterexample :
    login (fun _ _ => false) [] "user@example.com" "pw" =
      { status := 400, message := "Invalid email or password" } ∧
    (login (fun _ _ => false) [] "user@example.com" "pw").status ≠ 401 := by
  decide

/-- Claim C4 (amended): for nonempty credentials, an unknown email and a
known email with a failing password comparison are answered by the very
same response — status 400 (not 401) with body message "Invalid email or
password" — so the caller cannot tell the two cases apart. -/
theorem claim_C4 :
    ∀ (compare : String → String → Bool) (users : List IUser) (email password : String),
      email ≠ "" → password ≠ "" →
      (users.find? (fun u => u.email == email) = none →
        login compare users email password =
          { status := 400, message := "Invalid email or password" }) ∧
      (∀ user : IUser, users.find? (fun u => u.email == email) = some user →
        compare password user.password = false →
        login compare users email password =
          { status := 400, message := "Invalid email or password" }) := by
  intro compare users email password he hp
  have he' : (email == "") = false := by simpa using he
  have hp' : (password == "") = false := by simpa using hp
  constructor
  · intro hf
    simp [login, he', hp', hf]
  · intro user hf hc
    simp [login, he', hp', hf, hc]

/-- Claim C4 witness: both failure branches evaluated concretely — an
empty user table, and a table holding the email with a comparison that
rejects the password — produce the identical 400 response. -/
theorem claim_C4_witness :
    login (fun _ _ => false) [] "u@y" "pw" =
      { status := 400, message := "Invalid email or password" } ∧
    login (fun _ _ => false) [⟨"n", "u@x", "hash", [], [], []⟩] "u@x" "pw" =
      { status := 400, message := "Invalid email or password" } := by
  refine ⟨(claim_C4 (fun _ _ => false) [] "u@y" "pw" (by decide) (by decide)).1 rfl, ?_⟩
  exact (claim_C4 (fun _ _ => false) [⟨"n", "u@x", "hash", [], [], []⟩] "u@x" "pw"
    (by decide) (by decide)).2 ⟨"n", "u@x", "hash", [], [], []⟩ (by decide) rfl

/-- Claim C5, counterexample to the claim as stated: an item with
quantity 1 but an empty productId is also removed by `listCart`, so it is
not true that exactly the quantity-below-one items are removed. -/
theorem claim_C5_counterexample :
    (1 : Int) ≤ (⟨"", "Ghost", 1, 1, "g.png"⟩ : ICartItem).quantity ∧
    (getCart ⟨"n", "e@x", "h", [], [⟨"", "Ghost", 1, 1, "g.png"⟩], []⟩).2 = [] := by
  decide

/-- Claim C5 (amended): `listCart` returns the stored cart with exactly
the items whose quantity is below one or whose productId is empty removed
— every item with quantity at least 1 and a nonempty productId is kept, in
order — and the cleaned list is what ends up persisted on the user
aggregate; when nothing was removed the user document is left untouched. -/
theorem claim_C5 :
    ∀ user : IUser,
      (getCart user).2 = user.cart.filter
        (fun item => item.productId != "" && decide (0 < item.quantity)) ∧
      (getCart user).1.cart = (getCart user).2 ∧
      (∀ item ∈ user.cart, item.productId ≠ "" → 1 ≤ item.quantity →
        item ∈ (getCart user).2) ∧
      (∀ item ∈ (getCart user).2, item.productId ≠ "" ∧ 1 ≤ item.quantity) ∧
      ((getCart user).2.length = user.cart.length → (getCart user).1 = user) := by
  intro user
  refine ⟨getCart_snd user, (getCart_fst_cart user).trans (getCart_snd user).symm, ?_, ?_, ?_⟩
  · intro item hm hpid hq
    rw [getCart_snd]
    refine List.mem_filter.mpr ⟨hm, ?_⟩
    simp only [Bool.and_eq_true, bne_iff_ne, ne_eq, decide_eq_true_eq]
    exact ⟨hpid, by omega⟩
  · intro item hm
    rw [getCart_snd] at hm
    have h := (List.mem_filter.mp hm).2
    simp only [Bool.and_eq_true, bne_iff_ne, ne_eq, decide_eq_true_eq] at h
    exact ⟨h.1, by omega⟩
  · intro hlen
    rw [getCart_snd] at hlen
    simp [getCart, hlen]

/-- Claim C5 witness: a cart holding a valid entry and a quantity-zero
entry is compacted to the valid entry alone, in the response and in the
persisted document. -/
theorem claim_C5_witness :
    (getCart ⟨"n", "e@x", "h", [],
        [⟨"A", "Apple", 10, 2, "a.png"⟩, ⟨"B", "Pear", 5, 0, "b.png"⟩], []⟩).2 =
      [⟨"A", "Apple", 10, 2, "a.png"⟩] ∧
    (getCart ⟨"n", "e@x", "h", [],
        [⟨"A", "Apple", 10, 2, "a.png"⟩, ⟨"B", "Pear", 5, 0, "b.png"⟩], []⟩).1.cart =
      [⟨"A", "Apple", 10, 2, "a.png"⟩] ∧
    (⟨"A", "Apple", 10, 2, "a.png"⟩ : ICartItem) ∈
      (getCart ⟨"n", "e@x", "h", [],
        [⟨"A", "Apple", 10, 2, "a.png"⟩, ⟨"B", "Pear", 5, 0, "b.png"⟩], []⟩).2 := by
  have h := claim_C5 ⟨"n", "e@x", "h", [],
    [⟨"A", "Apple", 10, 2, "a.png"⟩, ⟨"B", "Pear", 5, 0, "b.png"⟩], []⟩
  exact ⟨h.1.trans (by decide), (h.2.1.trans h.1).trans (by decide),
    h.2.2.1 _ (by decide) (by decide) (by decide)⟩

/-- Claim C6, counterexample to the claim as stated: on the increment
branch an `addItem` with quantity below 1 is not rejected — adding
quantity -1 for a productId stored with quantity 5 succeeds with status
200 and mutates the cart to quantity 4. -/
theorem claim_C6_counterexample :
    (⟨"A", "Apple", 10, -1, "a.png"⟩ : ICartItem).quantity < 1 ∧
    addToCartHandler ⟨"n", "e@x", "h", [], [⟨"A", "Apple", 10, 5, "a.png"⟩], []⟩
        ⟨"A", "Apple", 10, -1, "a.png"⟩ =
      (⟨"n", "e@x", "h", [], [⟨"A", "Apple", 10, 4, "a.png"⟩], []⟩, 200) := by
  decide

/-- Claim C6 (amended): the quantity-below-one rejection only holds on the
new-item branch, where the schema validation run by the save makes the
call fail (status 500, stored cart unchanged); on the increment branch the
call succeeds exactly when the summed quantity stays at least 1, so a
quantity below 1 is accepted there whenever the running total allows it. -/
theorem claim_C6 :
    (∀ (user : IUser) (item : ICartItem),
        cartValid user.cart = true →
        (∀ c ∈ user.cart, c.productId ≠ item.productId) →
        item.quantity < 1 →
        addToCartHandler user item = (user, 500)) ∧
    (∀ (user : IUser) (l1 l2 : List ICartItem) (old item : ICartItem),
        cartValid user.cart = true →
        user.cart = l1 ++ old :: l2 →
        old.productId = item.productId →
        pidCount user.cart item.productId ≤ 1 →
        ((addToCartHandler user item).2 = 200 ↔ 1 ≤ old.quantity + item.quantity) ∧
        (1 ≤ old.quantity + item.quantity →
          addToCartHandler user item =
            ({ user with cart :=
                l1 ++ { old with quantity := old.quantity + item.quantity } :: l2 }, 200)) ∧
        (old.quantity + item.quantity < 1 →
          addToCartHandler user item = (user, 500))) := by
  constructor
  · intro user item hv hne hq
    have h1 : ¬(1 ≤ item.quantity) := by omega
    have hiv : cartItemValid item = false := by
      simp [cartItemValid, h1]
    simp [addToCartHandler, addToCart_of_forall_ne hne, cartValid_append,
      cartValid, hiv]
  · intro user l1 l2 old item hv hcart hold hcount
    have hcount' : pidCount (l1 ++ old :: l2) item.productId ≤ 1 := hcart ▸ hcount
    have hadd : addToCart user.cart item =
        l1 ++ { old with quantity := old.quantity + item.quantity } :: l2 := by
      rw [hcart]
      exact addToCart_append_match (forall_ne_of_pidCount_le hold hcount') hold
    have hv' : cartValid (l1 ++ old :: l2) = true := hcart ▸ hv
    rw [cartValid_append, cartValid_cons] at hv'
    simp only [Bool.and_eq_true] at hv'
    obtain ⟨hv1, hvo, hv2⟩ := hv'
    have b1 : (old.productId != "") = true := by
      have := hvo
      simp only [cartItemValid, Bool.and_eq_true] at this
      exact this.1.1.1.1
    have b2 : (old.name != "") = true := by
      have := hvo
      simp only [cartItemValid, Bool.and_eq_true] at this
      exact this.1.1.1.2
    have b3 : (decide (0 ≤ old.price)) = true := by
      have := hvo
      simp only [cartItemValid, Bool.and_eq_true] at this
      exact this.1.1.2
    have b5 : (old.image != "") = true := by
      have := hvo
      simp only [cartItemValid, Bool.and_eq_true] at this
      exact this.2
    have hbv : cartItemValid { old with quantity := old.quantity + item.quantity } =
        decide (1 ≤ old.quantity + item.quantity) := by
      simp [cartItemValid, b1, b2, b3, b5]
    have hcv : cartValid (l1 ++ { old with quantity := old.quantity + item.quantity } :: l2) =
        decide (1 ≤ old.quantity + item.quantity) := by
      rw [cartValid_append, cartValid_cons, hbv]
      simp [hv1, hv2]
    have hh : addToCartHandler user item =
        if 1 ≤ old.quantity + item.quantity
        then ({ user with cart :=
            l1 ++ { old with quantity := old.quantity + item.quantity } :: l2 }, 200)
        else (user, 500) := by
      simp only [addToCartHandler, hadd, hcv]
      by_cases hq : 1 ≤ old.quantity + item.quantity
      · simp [hq]
      · simp [hq]
    by_cases hq : 1 ≤ old.quantity + item.quantity
    · rw [hh, if_pos hq]
      exact ⟨⟨fun _ => hq, fun _ => rfl⟩, fun _ => rfl, fun hlt => absurd hq (by omega)⟩
    · rw [hh, if_neg hq]
      exact ⟨⟨fun h200 => by simp at h200, fun hq' => absurd hq' hq⟩,
        fun hq' => absurd hq' hq, fun _ => rfl⟩

/-- Claim C6 witness: a fresh productId with quantity 0 is rejected with
status 500 and no mutation; an increment of -1 onto a stored quantity 5
succeeds with status 200; an increment of -5 onto a stored quantity 1 is
rejected with status 500. -/
theorem claim_C6_witness :
    addToCartHandler ⟨"n", "e@x", "h", [], [⟨"A", "Apple", 10, 5, "a.png"⟩], []⟩
        ⟨"C", "New", 1, 0, "c.png"⟩ =
      (⟨"n", "e@x", "h", [], [⟨"A", "Apple", 10, 5, "a.png"⟩], []⟩, 500) ∧
    addToCartHandler ⟨"n", "e@x", "h", [], [⟨"A", "Apple", 10, 5, "a.png"⟩], []⟩
        ⟨"A", "Apple", 10, -1, "a.png"⟩ =
      (⟨"n", "e@x", "h", [], [⟨"A", "Apple", 10, 4, "a.png"⟩], []⟩, 200) ∧
    addToCartHandler ⟨"n", "e@x", "h", [], [⟨"A", "Apple", 10, 1, "a.png"⟩], []⟩
        ⟨"A", "Apple", 10, -5, "a.png"⟩ =
      (⟨"n", "e@x", "h", [], [⟨"A", "Apple", 10, 1, "a.png"⟩], []⟩, 500) := by
  have h := claim_C6
  refine ⟨h.1 _ _ (by decide) (by decide) (by decide), ?_, ?_⟩
  · exact ((h.2 _ [] [] ⟨"A", "Apple", 10, 5, "a.png"⟩ ⟨"A", "Apple", 10, -1, "a.png"⟩
      (by decide) (by decide) rfl (by decide)).2.1 (by decide)).trans (by decide)
  · exact (h.2 _ [] [] ⟨"A", "Apple", 10, 1, "a.png"⟩ ⟨"A", "Apple", 10, -5, "a.png"⟩
      (by decide) (by decide) rfl (by decide)).2.2 (by decide)

/-- Claim C7: `createOrder` appends to the order history exactly one order
carrying the caller's items, total and shippingInfo verbatim, the supplied
fresh identifier and the server clock value as `createdAt` (neither taken
from the request body), and leaves the cart untouched; `getOrders` then
returns the previous projection extended with that same order. -/
theorem claim_C7 :
    ∀ (user : IUser) (freshId now : Nat) (items : List IOrderItem) (total : Int)
      (shippingInfo : IShippingInfo),
      (createOrder user freshId now items total shippingInfo).cart = user.cart ∧
      (createOrder user freshId now items total shippingInfo).orders =
        user.orders ++ [IOrder.mk freshId items total now shippingInfo] ∧
      getOrders (createOrder user freshId now items total shippingInfo) =
        getOrders user ++ [IOrder.mk freshId items total now shippingInfo] := by
  intro user freshId now items total shippingInfo
  refine ⟨rfl, rfl, ?_⟩
  have hproj : (fun item : IOrderItem =>
      ({ productId := item.productId, name := item.name, price := item.price,
         quantity := item.quantity, image := item.image } : IOrderItem)) = id :=
    funext fun _ => rfl
  simp [getOrders, createOrder, hproj]

/-- Claim C8: `removeFromCart` keeps exactly the entries with a different
productId (so a present productId is removed and every other entry kept),
an absent productId leaves the user document entirely unchanged, and the
operation is idempotent. -/
theorem claim_C8 :
    ∀ (user : IUser) (pid : String),
      (removeFromCart user pid).cart =
        user.cart.filter (fun item => item.productId != pid) ∧
      (∀ c ∈ (removeFromCart user pid).cart, c.productId ≠ pid) ∧
      (∀ c ∈ user.cart, c.productId ≠ pid → c ∈ (removeFromCart user pid).cart) ∧
      ((∀ c ∈ user.cart, c.productId ≠ pid) → removeFromCart user pid = user) ∧
      removeFromCart (removeFromCart user pid) pid = removeFromCart user pid := by
  intro user pid
  refine ⟨rfl, ?_, ?_, ?_, ?_⟩
  · intro c hc
    have h := (List.mem_filter.mp hc).2
    simpa using h
  · intro c hc hne
    exact List.mem_filter.mpr ⟨hc, by simpa using hne⟩
  · intro h
    have hfe : user.cart.filter (fun item => item.productId != pid) = user.cart :=
      List.filter_eq_self.mpr (fun a ha => by simpa using h a ha)
    unfold removeFromCart
    rw [hfe]
  · have hff : ((user.cart.filter (fun item => item.productId != pid)).filter
        (fun item => item.productId != pid)) =
          user.cart.filter (fun item => item.productId != pid) :=
      List.filter_eq_self.mpr (fun a ha => (List.mem_filter.mp ha).2)
    unfold removeFromCart
    simp [hff]

/-- Claim C8 witness: removing productId "A" from a two-entry cart keeps
the "B" entry; removing the absent productId "C" returns the user
unchanged; removing "A" twice equals removing it once. -/
theorem claim_C8_witness :
    (removeFromCart ⟨"n", "e@x", "h", [],
        [⟨"A", "Apple", 10, 2, "a.png"⟩, ⟨"B", "Pear", 5, 1, "b.png"⟩], []⟩ "A").cart =
      [⟨"B", "Pear", 5, 1, "b.png"⟩] ∧
    removeFromCart ⟨"n", "e@x", "h", [],
        [⟨"A", "Apple", 10, 2, "a.png"⟩, ⟨"B", "Pear", 5, 1, "b.png"⟩], []⟩ "C" =
      ⟨"n", "e@x", "h", [],
        [⟨"A", "Apple", 10, 2, "a.png"⟩, ⟨"B", "Pear", 5, 1, "b.png"⟩], []⟩ ∧
    removeFromCart (removeFromCart ⟨"n", "e@x", "h", [],
        [⟨"A", "Apple", 10, 2, "a.png"⟩, ⟨"B", "Pear", 5, 1, "b.png"⟩], []⟩ "A") "A" =
      removeFromCart ⟨"n", "e@x", "h", [],
        [⟨"A", "Apple", 10, 2, "a.png"⟩, ⟨"B", "Pear", 5, 1, "b.png"⟩], []⟩ "A" := by
  refine ⟨(claim_C8 _ "A").1.trans (by decide), ?_, (claim_C8 _ "A").2.2.2.2⟩
  exact (claim_C8 ⟨"n", "e@x", "h", [],
    [⟨"A", "Apple", 10, 2, "a.png"⟩, ⟨"B", "Pear", 5, 1, "b.png"⟩], []⟩ "C").2.2.2.1
    (by decide)

/-- Claim C9: `addFavorite` leaves the favorites list unchanged when the
productId is already present, appends it otherwise, and applying it twice
with the same productId equals applying it once. -/
theorem claim_C9 :
    ∀ (favorites : List String) (productId : String),
      (productId ∈ favorites → addFavorite favorites productId = favorites) ∧
      (productId ∉ favorites → addFavorite favorites productId = favorites ++ [productId]) ∧
      addFavorite (addFavorite favorites productId) productId =
        addFavorite favorites productId := by
  intro favorites productId
  by_cases h : productId ∈ favorites
  · exact ⟨fun _ => by simp [addFavorite, h], fun hn => absurd h hn,
      by simp [addFavorite, h]⟩
  · exact ⟨fun hm => absurd hm h, fun _ => by simp [addFavorite, h],
      by simp [addFavorite, h]⟩

/-- Claim C9 witness: adding the already-favorited "X" returns the list
unchanged; adding the fresh "Y" appends it; a second add of "Y" changes
nothing further. -/
theorem claim_C9_witness :
    addFavorite ["X"] "X" = ["X"] ∧
    addFavorite ["X"] "Y" = ["X", "Y"] ∧
    addFavorite (addFavorite ["X"] "Y") "Y" = addFavorite ["X"] "Y" := by
  exact ⟨(claim_C9 ["X"] "X").1 (by decide),
    (claim_C9 ["X"] "Y").2.1 (by decide),
    (claim_C9 ["X"] "Y").2.2⟩

/-- Claim C10: the compaction of `getCart` also drops every item whose
productId is the empty string (the JavaScript-falsy case, covering a
missing productId), whatever its quantity: such an item is in neither the
response cart nor the persisted cleaned cart. -/
theorem claim_C10 :
    ∀ (user : IUser) (item : ICartItem), item ∈ user.cart → item.productId = "" →
      item ∉ (getCart user).2 ∧ item ∉ (getCart user).1.cart := by
  intro user item hm hpid
  have key : item ∉ user.cart.filter
      (fun i => i.productId != "" && decide (0 < i.quantity)) := by
    intro hin
    have h := (List.mem_filter.mp hin).2
    simp [hpid] at h
  exact ⟨by rw [getCart_snd]; exact key, by rw [getCart_fst_cart]; exact key⟩

/-- Claim C10 witness: an item with empty productId and positive
quantity 2 is dropped from both the returned and the persisted cart. -/
theorem claim_C10_witness :
    (⟨"", "Ghost", 1, 2, "g.png"⟩ : ICartItem) ∉
      (getCart ⟨"n", "e@x", "h", [],
        [⟨"", "Ghost", 1, 2, "g.png"⟩, ⟨"A", "Apple", 10, 2, "a.png"⟩], []⟩).2 ∧
    (⟨"", "Ghost", 1, 2, "g.png"⟩ : ICartItem) ∉
      (getCart ⟨"n", "e@x", "h", [],
        [⟨"", "Ghost", 1, 2, "g.png"⟩, ⟨"A", "Apple", 10, 2, "a.png"⟩], []⟩).1.cart := by
  exact claim_C10 ⟨"n", "e@x", "h", [],
    [⟨"", "Ghost", 1, 2, "g.png"⟩, ⟨"A", "Apple", 10, 2, "a.png"⟩], []⟩
    ⟨"", "Ghost", 1, 2, "g.png"⟩ (by decide) rfl

end ShoppingSite
